import Mathlib

/-!
Verification of the knowledge-engine core of an agricultural-planning
assistant: the ingestion pipeline (`knowledge_engine/builder.py`,
`build_vector_store`) and the query engine (`knowledge_engine/retriever.py`,
`query_vector_store`), embedded shallowly.

Modelling conventions:

* Embedding vectors are lists of rationals (`Vec`), abstracting the
  floating-point vectors produced by the embedding model.
* The embedding model (`sentence_transformers`, an external collaborator) is
  a parameter `embed : String → Vec`; the batch call
  `model.encode(chunks, convert_to_tensor=False)` is `chunks.map embed`,
  per the collaborator interface of the spec (deterministic, `output[i]`
  is the embedding of `input[i]`).
* The chunker (`langchain`'s `RecursiveCharacterTextSplitter`, external) is
  a parameter `split : String → List String`.
* The file system is a map from path strings to artifacts (`FS`);
  directories are implicit, so `os.makedirs` needs no separate step.
* FAISS's `IndexFlatL2` is an external library.  Its exact search is
  modelled from the spec (§4.3): the k nearest stored vectors by squared
  Euclidean distance, nearest first, ties broken by lowest insertion
  index; the label output is padded with `-1` when k exceeds the number of
  stored vectors (documented FAISS behaviour, presupposed by the
  retriever's `i < len(chunks)` filter).
* Python exceptions are explicit error values.  Python list indexing
  `chunks[i]` with an `int` subscript is `pyIndex`: negative subscripts
  address from the end of the list, out-of-range subscripts raise
  `IndexError` (here: `none`).
-/

/-- An embedding vector: a finite sequence of (abstracted) floats. -/
abbrev Vec := List ℚ

/-- On-disk artifacts: a UTF-8 text document, a written FAISS flat index
(dimensionality plus the stored vectors, in insertion order), or a pickled
list of chunk strings. -/
inductive Artifact where
  | text (s : String)
  | faissIndex (d : ℕ) (vecs : List Vec)
  | pickledChunks (cs : List String)
deriving DecidableEq

/-- The file system: path strings to artifact contents. -/
abbrev FS := String → Option Artifact

/-- Writing (or overwriting) one file in place. -/
def fsWrite (fs : FS) (p : String) (a : Artifact) : FS :=
  fun q => if q = p then some a else fs q

/-- `VECTOR_STORE_PATH` of both `builder.py` and `retriever.py`. -/
def VECTOR_STORE_PATH : String := "vector_db/agri_knowledge"

/-- `os.path.join(VECTOR_STORE_PATH, "index.faiss")`. -/
def indexPath : String := VECTOR_STORE_PATH ++ "/index.faiss"

/-- `os.path.join(VECTOR_STORE_PATH, "chunks.pkl")`. -/
def chunksPath : String := VECTOR_STORE_PATH ++ "/chunks.pkl"

/-- The exceptions `build_vector_store` can raise.  `emptyDocument` mirrors
the spec's `EmptyDocument` error name (§7); the code never raises it. -/
inductive BuildError where
  | assertionError
  | documentNotFound
  | indexError
  | emptyDocument
deriving DecidableEq

/-- `faiss.write_index(index, os.path.join(VECTOR_STORE_PATH, "index.faiss"))`:
the first of the two sequential artifact writes in `build_vector_store`. -/
def writeIndexArtifact (fs : FS) (d : ℕ) (vecs : List Vec) : FS :=
  fsWrite fs indexPath (.faissIndex d vecs)

/-- `pickle.dump(chunks, f)` into `chunks.pkl`: the second of the two
sequential artifact writes in `build_vector_store`. -/
def writeChunksArtifact (fs : FS) (cs : List String) : FS :=
  fsWrite fs chunksPath (.pickledChunks cs)

/-- Python's `str.endswith(suffix)`: whether the character sequence of
`suffix` is a suffix of the character sequence of `s`. -/
def pyEndswith (s suffix : String) : Bool :=
  suffix.data.isSuffixOf s.data

/-- `build_vector_store(file_path)` from `knowledge_engine/builder.py`.
Returns the resulting file-system state together with the exception raised,
if any: `assert file_path.endswith(".txt")`, then read the document
(`FileNotFoundError` if absent), chunk it, embed the chunks in one batch,
take `len(embeddings[0])` as the index dimensionality (`IndexError` when the
chunk list is empty), build `IndexFlatL2` and `add` all embeddings, then
write `index.faiss` followed by `chunks.pkl`. -/
def buildVectorStore (embed : String → Vec) (split : String → List String)
    (file_path : String) (fs : FS) : FS × Option BuildError :=
  if pyEndswith file_path ".txt" then
    match fs file_path with
    | some (.text raw) =>
      let chunks := split raw
      let embeddings := chunks.map embed
      match embeddings.head? with
      | none => (fs, some .indexError)
      | some v0 =>
        (writeChunksArtifact (writeIndexArtifact fs v0.length embeddings) chunks, none)
    | _ => (fs, some .documentNotFound)
  else (fs, some .assertionError)

/-- The exceptions `query_vector_store` can raise.  `corruptIndex` mirrors
the spec's `CorruptIndex` error name (§4.3/§7); the code never raises it.
`badArtifact` stands for a `faiss.read_index`/`pickle.load` failure on a
file of the wrong format. -/
inductive QueryError where
  | knowledgeBaseNotFound
  | badArtifact
  | dimensionMismatch
  | indexError
  | corruptIndex
deriving DecidableEq

/-- An in-memory knowledge base: the loaded FAISS index (dimensionality and
vectors) and the unpickled chunk list. -/
structure Store where
  dim : ℕ
  vectors : List Vec
  chunks : List String
deriving DecidableEq

/-- The load phase of `query_vector_store`: the `os.path.exists` guard on
both companion artifacts (raising `FileNotFoundError` when either is
missing), then `faiss.read_index` and `pickle.load`.  No count comparison
is performed. -/
def loadStore (fs : FS) : Except QueryError Store :=
  match fs indexPath, fs chunksPath with
  | none, _ => .error .knowledgeBaseNotFound
  | _, none => .error .knowledgeBaseNotFound
  | some (.faissIndex d vecs), some (.pickledChunks cs) => .ok ⟨d, vecs, cs⟩
  | some _, some _ => .error .badArtifact

/-- Squared Euclidean distance between two vectors (FAISS's L2 metric). -/
def sqDist (u v : Vec) : ℚ := (List.zipWith (fun a b => (a - b) * (a - b)) u v).sum

/-- Distance from the query vector to the stored vector at position `i`. -/
def distTo (db : List Vec) (q : Vec) (i : ℕ) : ℚ := sqDist q (db.getD i [])

/-- The ranking order of the search: position `i` precedes position `j`
when it is strictly closer to the query, or at equal distance when
`i ≤ j` (ties broken by lowest insertion index). -/
abbrev keyLE (db : List Vec) (q : Vec) (i j : ℕ) : Prop :=
  distTo db q i < distTo db q j ∨ (distTo db q i = distTo db q j ∧ i ≤ j)

instance keyLETotal (db : List Vec) (q : Vec) : IsTotal ℕ (keyLE db q) where
  total i j := by
    rcases lt_trichotomy (distTo db q i) (distTo db q j) with h | h | h
    · exact Or.inl (Or.inl h)
    · rcases Nat.le_total i j with hij | hij
      · exact Or.inl (Or.inr ⟨h, hij⟩)
      · exact Or.inr (Or.inr ⟨h.symm, hij⟩)
    · exact Or.inr (Or.inl h)

instance keyLETrans (db : List Vec) (q : Vec) : IsTrans ℕ (keyLE db q) where
  trans i j k hij hjk := by
    rcases hij with h1 | ⟨e1, l1⟩
    · rcases hjk with h2 | ⟨e2, _⟩
      · exact Or.inl (h1.trans h2)
      · exact Or.inl (lt_of_lt_of_le h1 (le_of_eq e2))
    · rcases hjk with h2 | ⟨e2, l2⟩
      · exact Or.inl (lt_of_le_of_lt (le_of_eq e1) h2)
      · exact Or.inr ⟨e1.trans e2, l1.trans l2⟩

/-- All stored positions, ranked by the search order: an exact scan of the
whole index, as FAISS's flat index performs. -/
def rankedIndices (db : List Vec) (q : Vec) : List ℕ :=
  List.insertionSort (keyLE db q) (List.range db.length)

/-- Modelled from the spec: `index.search(query_vec, k)` on a FAISS
`IndexFlatL2` holding `db` (in insertion order) returns the labels of the
k nearest stored vectors by squared Euclidean distance, nearest first,
ties broken by lowest insertion index (§4.3); when k exceeds the number of
stored vectors the label list is padded with `-1` (documented FAISS
behaviour for missing neighbours). -/
def faissSearch (db : List Vec) (q : Vec) (k : ℕ) : List ℤ :=
  ((rankedIndices db q).take k).map Int.ofNat
    ++ List.replicate (k - db.length) (-1)

/-- Python list subscripting `xs[i]` with an `int` subscript: negative
subscripts address from the end; out-of-range subscripts raise `IndexError`
(`none`). -/
def pyIndex {α : Type} (xs : List α) (i : ℤ) : Option α :=
  if 0 ≤ i then xs[i.toNat]?
  else if 0 ≤ (xs.length : ℤ) + i then xs[((xs.length : ℤ) + i).toNat]?
  else none

/-- The body of the comprehension `[chunks[i] for i in ... ]`: materialize
each subscript in order, raising `IndexError` (`none`) on the first invalid
one. -/
def materialize (cs : List String) : List ℤ → Option (List String)
  | [] => some []
  | i :: is =>
    match pyIndex cs i, materialize cs is with
    | some s, some rest => some (s :: rest)
    | _, _ => none

/-- The search phase of `query_vector_store` on a loaded store: embed the
query, `index.search(query_vec, top_k)` (FAISS asserts the query has the
index's dimensionality), then
`results = [chunks[i] for i in I[0] if i < len(chunks)]`. -/
def searchStore (embed : String → Vec) (st : Store) (query : String) (top_k : ℕ) :
    Except QueryError (List String) :=
  let query_vec := embed query
  if query_vec.length = st.dim then
    match materialize st.chunks
        ((faissSearch st.vectors query_vec top_k).filter
          (fun i => i < (st.chunks.length : ℤ))) with
    | some results => .ok results
    | none => .error .indexError
  else .error .dimensionMismatch

/-- `query_vector_store(query, top_k)` from `knowledge_engine/retriever.py`:
load the knowledge base from the fixed path, then search it. -/
def queryVectorStore (embed : String → Vec) (fs : FS) (query : String) (top_k : ℕ) :
    Except QueryError (List String) :=
  match loadStore fs with
  | .error e => .error e
  | .ok st => searchStore embed st query top_k

/-! ## Concrete instantiations of the external collaborators, for witnesses -/

/-- A concrete deterministic instantiation of the embedding-model parameter:
every string embeds to the one-dimensional vector `[1]`. -/
def embedOne : String → Vec := fun _ => [1]

/-- A concrete deterministic instantiation of the chunker parameter: an
empty document yields no chunks, any other document yields one chunk. -/
def toySplit : String → List String := fun raw => if raw = "" then [] else [raw]

/-- A knowledge base of three one-dimensional vectors and their chunks. -/
def fsThree : FS := fun p =>
  if p = indexPath then some (.faissIndex 1 [[0], [2], [5]])
  else if p = chunksPath then some (.pickledChunks ["a", "b", "c"]) else none

/-- A knowledge base holding a single vector/chunk pair. -/
def fsSingle : FS := fun p =>
  if p = indexPath then some (.faissIndex 1 [[0]])
  else if p = chunksPath then some (.pickledChunks ["c0"]) else none

/-- A degenerate but loadable knowledge base: an empty index beside an empty
chunk list. -/
def fsDegenerate : FS := fun p =>
  if p = indexPath then some (.faissIndex 1 ([] : List Vec))
  else if p = chunksPath then some (.pickledChunks ([] : List String)) else none

/-- A corrupt knowledge base: two stored vectors but only one chunk. -/
def fsMismatch : FS := fun p =>
  if p = indexPath then some (.faissIndex 1 [[0], [4]])
  else if p = chunksPath then some (.pickledChunks ["a"]) else none

/-- The prior generation of persisted artifacts, used by the ingestion
fixtures. -/
def oldIndexArt : Artifact := .faissIndex 1 [[9]]

/-- The prior generation of the pickled chunk list. -/
def oldChunksArt : Artifact := .pickledChunks ["old"]

/-- A disk holding a previously built knowledge base plus an empty source
document. -/
def fsPriorEmptyDoc : FS := fun p =>
  if p = "empty.txt" then some (.text "")
  else if p = indexPath then some oldIndexArt
  else if p = chunksPath then some oldChunksArt
  else none

/-- A disk holding a previously built knowledge base plus a fresh non-empty
source document. -/
def fsPriorNewDoc : FS := fun p =>
  if p = "new.txt" then some (.text "new")
  else if p = indexPath then some oldIndexArt
  else if p = chunksPath then some oldChunksArt
  else none

/-- A disk holding one readable source document and nothing else. -/
def fsDocOnly : FS := fun p =>
  if p = "doc.txt" then some (.text "hello") else none

/-- An entirely empty disk. -/
def fsEmpty : FS := fun _ => none

/-! ## Basic lemmas about the search ranking -/

theorem rankedIndices_perm (db : List Vec) (q : Vec) :
    List.Perm (rankedIndices db q) (List.range db.length) :=
  List.perm_insertionSort _ _

theorem rankedIndices_sorted (db : List Vec) (q : Vec) :
    List.Sorted (keyLE db q) (rankedIndices db q) :=
  List.sorted_insertionSort _ _

theorem rankedIndices_length (db : List Vec) (q : Vec) :
    (rankedIndices db q).length = db.length := by
  rw [(rankedIndices_perm db q).length_eq, List.length_range]

theorem rankedIndices_nodup (db : List Vec) (q : Vec) :
    (rankedIndices db q).Nodup :=
  (rankedIndices_perm db q).nodup_iff.mpr (List.nodup_range db.length)

theorem mem_rankedIndices {db : List Vec} {q : Vec} {i : ℕ} :
    i ∈ rankedIndices db q ↔ i < db.length := by
  rw [(rankedIndices_perm db q).mem_iff, List.mem_range]

theorem faissSearch_eq_of_le {db : List Vec} {q : Vec} {k : ℕ} (hk : k ≤ db.length) :
    faissSearch db q k = ((rankedIndices db q).take k).map Int.ofNat := by
  simp [faissSearch, Nat.sub_eq_zero_of_le hk]

theorem faissSearch_length (db : List Vec) (q : Vec) (k : ℕ) :
    (faissSearch db q k).length = k := by
  simp only [faissSearch, List.length_append, List.length_map, List.length_take,
    List.length_replicate, rankedIndices_length]
  omega

theorem mem_faissSearch {db : List Vec} {q : Vec} {k : ℕ} {i : ℤ}
    (h : i ∈ faissSearch db q k) : i = -1 ∨ ∃ n : ℕ, i = (n : ℤ) ∧ n < db.length := by
  rcases List.mem_append.mp h with h1 | h2
  · rcases List.mem_map.mp h1 with ⟨n, hn, rfl⟩
    exact Or.inr ⟨n, rfl, mem_rankedIndices.mp (List.mem_of_mem_take hn)⟩
  · exact Or.inl (List.eq_of_mem_replicate h2)

/-! ## Lemmas about Python indexing and materialization -/

theorem pyIndex_ofNat {α : Type} (xs : List α) (n : ℕ) :
    pyIndex xs (Int.ofNat n) = xs[n]? := by
  have h0 : (0 : ℤ) ≤ Int.ofNat n := Int.ofNat_nonneg n
  simp only [pyIndex, if_pos h0]
  rfl

theorem pyIndex_ofNat_of_lt {α : Type} {xs : List α} {n : ℕ} (h : n < xs.length) :
    ∃ a, pyIndex xs (Int.ofNat n) = some a := by
  rw [pyIndex_ofNat]
  exact ⟨xs[n], List.getElem?_eq_getElem h⟩

theorem pyIndex_neg_one {α : Type} {xs : List α} (h : xs ≠ []) :
    ∃ a, pyIndex xs (-1) = some a := by
  have hlen : 0 < xs.length := List.length_pos.mpr h
  have h0 : ¬ (0 : ℤ) ≤ -1 := by decide
  have h1 : (0 : ℤ) ≤ (xs.length : ℤ) + (-1) := by omega
  have h2 : ((xs.length : ℤ) + (-1)).toNat < xs.length := by omega
  refine ⟨xs[((xs.length : ℤ) + (-1)).toNat], ?_⟩
  simp only [pyIndex, if_neg h0, if_pos h1]
  exact List.getElem?_eq_getElem h2

theorem materialize_map_ofNat (cs : List String) :
    ∀ idxs : List ℕ, (∀ i ∈ idxs, i < cs.length) →
      materialize cs (idxs.map Int.ofNat) =
        some (idxs.map fun n => cs.getD n "")
  | [], _ => rfl
  | n :: idxs, h => by
    have hn : n < cs.length := h n (List.mem_cons_self n idxs)
    have hrec := materialize_map_ofNat cs idxs fun i hi => h i (List.mem_cons_of_mem n hi)
    have hget : pyIndex cs (Int.ofNat n) = some (cs.getD n "") := by
      rw [pyIndex_ofNat, List.getD_eq_getElem?_getD, List.getElem?_eq_getElem hn]
      rfl
    show (match pyIndex cs (Int.ofNat n), materialize cs (idxs.map Int.ofNat) with
      | some s, some rest => some (s :: rest)
      | _, _ => none) = _
    rw [hget, hrec]
    rfl

theorem materialize_total {cs : List String} (hne : cs ≠ []) :
    ∀ l : List ℤ, (∀ i ∈ l, -1 ≤ i ∧ i < (cs.length : ℤ)) →
      ∃ rs, materialize cs l = some rs ∧ rs.length = l.length
  | [], _ => ⟨[], rfl, rfl⟩
  | i :: l, h => by
    obtain ⟨h1, h2⟩ := h i (List.mem_cons_self i l)
    obtain ⟨rs, hrs, hlen⟩ := materialize_total hne l fun j hj => h j (List.mem_cons_of_mem i hj)
    have hsome : ∃ a, pyIndex cs i = some a := by
      rcases Int.le_iff_lt_or_eq.mp h1 with hlt | heq
      · have hpos : 0 ≤ i := by omega
        obtain ⟨n, rfl⟩ := Int.eq_ofNat_of_zero_le hpos
        exact pyIndex_ofNat_of_lt (by exact_mod_cast h2)
      · exact heq ▸ pyIndex_neg_one hne
    obtain ⟨a, ha⟩ := hsome
    refine ⟨a :: rs, ?_, by simp [hlen]⟩
    show (match pyIndex cs i, materialize cs l with
      | some s, some rest => some (s :: rest)
      | _, _ => none) = _
    rw [ha, hrs]

/-! ## Loading -/

theorem loadStore_of_artifacts {fs : FS} {d : ℕ} {vecs : List Vec} {cs : List String}
    (hidx : fs indexPath = some (Artifact.faissIndex d vecs))
    (hchk : fs chunksPath = some (Artifact.pickledChunks cs)) :
    loadStore fs = Except.ok ⟨d, vecs, cs⟩ := by
  unfold loadStore
  rw [hidx, hchk]

/-- C1: for every knowledge base of `N` vectors with `N ≥ k` and every query
whose embedding has the index's dimensionality, `query_vector_store` returns
exactly the k stored chunks whose vectors are closest to the query vector
under squared Euclidean distance, ordered nearest-first, ties broken by
lowest original insertion index: the result materializes a list `idxs` of k
distinct stored positions, ordered by the search ranking `keyLE`, such that
every chosen position ranks no worse than every stored position left out. -/
theorem claim_C1 (embed : String → Vec) (fs : FS) (query : String) (k d : ℕ)
    (vecs : List Vec) (chunks : List String)
    (hidx : fs indexPath = some (Artifact.faissIndex d vecs))
    (hchk : fs chunksPath = some (Artifact.pickledChunks chunks))
    (hcount : vecs.length = chunks.length)
    (hk : k ≤ vecs.length)
    (hdim : (embed query).length = d) :
    ∃ idxs : List ℕ,
      queryVectorStore embed fs query k =
        Except.ok (idxs.map fun n => chunks.getD n "") ∧
      idxs.length = k ∧
      idxs.Nodup ∧
      (∀ i ∈ idxs, i < vecs.length) ∧
      List.Pairwise (keyLE vecs (embed query)) idxs ∧
      (∀ i ∈ idxs, ∀ j, j < vecs.length → j ∉ idxs → keyLE vecs (embed query) i j) := by
  have hload := loadStore_of_artifacts hidx hchk
  refine ⟨(rankedIndices vecs (embed query)).take k, ?_, ?_, ?_, ?_, ?_, ?_⟩
  · -- the returned value
    have hall : ∀ n ∈ (rankedIndices vecs (embed query)).take k, n < vecs.length :=
      fun n hn => mem_rankedIndices.mp (List.mem_of_mem_take hn)
    have hallc : ∀ n ∈ (rankedIndices vecs (embed query)).take k, n < chunks.length :=
      fun n hn => hcount ▸ hall n hn
    have hfil :
        (((rankedIndices vecs (embed query)).take k).map Int.ofNat).filter
            (fun i => decide (i < (chunks.length : ℤ))) =
          ((rankedIndices vecs (embed query)).take k).map Int.ofNat := by
      apply List.filter_eq_self.mpr
      intro i hi
      rcases List.mem_map.mp hi with ⟨n, hn, rfl⟩
      simp only [decide_eq_true_eq]
      show (n : ℤ) < (chunks.length : ℤ)
      exact_mod_cast hallc n hn
    have hmat := materialize_map_ofNat chunks ((rankedIndices vecs (embed query)).take k) hallc
    simp only [queryVectorStore, hload, searchStore]
    rw [if_pos hdim, faissSearch_eq_of_le hk]
    rw [hfil, hmat]
  · -- exactly k results
    rw [List.length_take, rankedIndices_length]
    exact Nat.min_eq_left hk
  · -- no stored position repeated
    exact (rankedIndices_nodup vecs (embed query)).sublist (List.take_sublist k _)
  · -- all chosen positions are stored positions
    exact fun n hn => mem_rankedIndices.mp (List.mem_of_mem_take hn)
  · -- ordered nearest-first, ties by lowest insertion index
    exact (rankedIndices_sorted vecs (embed query)).sublist (List.take_sublist k _)
  · -- every chosen position ranks no worse than every omitted one
    intro i hi j hj hjn
    have hsorted := rankedIndices_sorted vecs (embed query)
    have hsplit := List.take_append_drop k (rankedIndices vecs (embed query))
    rw [← hsplit] at hsorted
    have hcross := (List.pairwise_append.mp hsorted).2.2
    have hjmem : j ∈ rankedIndices vecs (embed query) := mem_rankedIndices.mpr hj
    rw [← hsplit] at hjmem
    rcases List.mem_append.mp hjmem with hjt | hjd
    · exact absurd hjt hjn
    · exact hcross i hi j hjd

/-! ## The two artifact paths and the write steps -/

theorem indexPath_ne_chunksPath : indexPath ≠ chunksPath := by decide

theorem chunksPath_ne_indexPath : chunksPath ≠ indexPath := by decide

theorem writeIndexArtifact_indexPath (fs : FS) (d : ℕ) (vecs : List Vec) :
    writeIndexArtifact fs d vecs indexPath = some (Artifact.faissIndex d vecs) := by
  simp [writeIndexArtifact, fsWrite]

theorem writeIndexArtifact_other (fs : FS) (d : ℕ) (vecs : List Vec) {p : String}
    (hp : p ≠ indexPath) : writeIndexArtifact fs d vecs p = fs p := by
  simp [writeIndexArtifact, fsWrite, hp]

theorem writeChunksArtifact_chunksPath (fs : FS) (cs : List String) :
    writeChunksArtifact fs cs chunksPath = some (Artifact.pickledChunks cs) := by
  simp [writeChunksArtifact, fsWrite]

theorem writeChunksArtifact_other (fs : FS) (cs : List String) {p : String}
    (hp : p ≠ chunksPath) : writeChunksArtifact fs cs p = fs p := by
  simp [writeChunksArtifact, fsWrite, hp]

/-! ## Characterizing the runs of the ingestion pipeline -/

theorem buildVectorStore_ok_inv {embed : String → Vec} {split : String → List String}
    {file_path : String} {fs fs2 : FS}
    (h : buildVectorStore embed split file_path fs = (fs2, none)) :
    ∃ (raw : String) (v0 : Vec) (vs : List Vec),
      fs file_path = some (Artifact.text raw) ∧
      (split raw).map embed = v0 :: vs ∧
      fs2 = writeChunksArtifact (writeIndexArtifact fs v0.length (v0 :: vs)) (split raw) := by
  by_cases hend : pyEndswith file_path ".txt" = true
  · cases hfp : fs file_path with
    | none =>
      simp only [buildVectorStore, if_pos hend, hfp] at h
      simp [Prod.ext_iff] at h
    | some art =>
      cases art with
      | text raw =>
        cases hl : (split raw).map embed with
        | nil =>
          simp only [buildVectorStore, if_pos hend, hfp, hl, List.head?_nil] at h
          simp [Prod.ext_iff] at h
        | cons v0 vs =>
          simp only [buildVectorStore, if_pos hend, hfp, hl, List.head?_cons] at h
          refine ⟨raw, v0, vs, rfl, hl, ?_⟩
          exact (congrArg Prod.fst h).symm
      | faissIndex d vecs =>
        simp only [buildVectorStore, if_pos hend, hfp] at h
        simp [Prod.ext_iff] at h
      | pickledChunks cs =>
        simp only [buildVectorStore, if_pos hend, hfp] at h
        simp [Prod.ext_iff] at h
  · simp only [buildVectorStore, if_neg hend] at h
    simp [Prod.ext_iff] at h

theorem buildVectorStore_error_fs {embed : String → Vec} {split : String → List String}
    {file_path : String} {fs fs2 : FS} {e : BuildError}
    (h : buildVectorStore embed split file_path fs = (fs2, some e)) : fs2 = fs := by
  by_cases hend : pyEndswith file_path ".txt" = true
  · cases hfp : fs file_path with
    | none =>
      simp only [buildVectorStore, if_pos hend, hfp] at h
      exact ((Prod.ext_iff.mp h).1).symm
    | some art =>
      cases art with
      | text raw =>
        cases hl : (split raw).map embed with
        | nil =>
          simp only [buildVectorStore, if_pos hend, hfp, hl, List.head?_nil] at h
          exact ((Prod.ext_iff.mp h).1).symm
        | cons v0 vs =>
          simp only [buildVectorStore, if_pos hend, hfp, hl, List.head?_cons] at h
          exact absurd (Prod.ext_iff.mp h).2 (by simp)
      | faissIndex d vecs =>
        simp only [buildVectorStore, if_pos hend, hfp] at h
        exact ((Prod.ext_iff.mp h).1).symm
      | pickledChunks cs =>
        simp only [buildVectorStore, if_pos hend, hfp] at h
        exact ((Prod.ext_iff.mp h).1).symm
  · simp only [buildVectorStore, if_neg hend] at h
    exact ((Prod.ext_iff.mp h).1).symm

theorem buildVectorStore_empty_chunks {embed : String → Vec} {split : String → List String}
    {file_path : String} {fs : FS} {raw : String}
    (hend : pyEndswith file_path ".txt" = true)
    (hfp : fs file_path = some (Artifact.text raw))
    (hl : split raw = []) :
    buildVectorStore embed split file_path fs = (fs, some BuildError.indexError) := by
  simp only [buildVectorStore, if_pos hend, hfp, hl, List.map_nil, List.head?_nil]

/-- C2: after every successful ingestion run of `build_vector_store`, the
persisted index holds exactly as many vectors as the persisted chunk list
holds chunks, and for every position i the vector at position i is the
embedding of the chunk at position i. -/
theorem claim_C2 (embed : String → Vec) (split : String → List String)
    (file_path : String) (fs fs2 : FS)
    (h : buildVectorStore embed split file_path fs = (fs2, none)) :
    ∃ (d : ℕ) (vecs : List Vec) (chunks : List String),
      fs2 indexPath = some (Artifact.faissIndex d vecs) ∧
      fs2 chunksPath = some (Artifact.pickledChunks chunks) ∧
      vecs.length = chunks.length ∧
      ∀ (i : ℕ) (h1 : i < vecs.length) (h2 : i < chunks.length),
        vecs[i] = embed chunks[i] := by
  obtain ⟨raw, v0, vs, hfp, hl, rfl⟩ := buildVectorStore_ok_inv h
  refine ⟨v0.length, v0 :: vs, split raw, ?_, ?_, ?_, ?_⟩
  · rw [writeChunksArtifact_other _ _ indexPath_ne_chunksPath, writeIndexArtifact_indexPath]
  · rw [writeChunksArtifact_chunksPath]
  · rw [← hl]
    exact List.length_map _ _
  · intro i h1 h2
    revert h1
    rw [← hl]
    intro h1
    exact List.getElem_map embed

/-- C3: for every successful build-and-persist run, loading the persisted
artifacts yields exactly the in-memory store of that run (its embeddings and
its chunks), so every query's search against the persisted knowledge base
returns the same results as the in-memory store's search. -/
theorem claim_C3 (embed : String → Vec) (split : String → List String)
    (file_path : String) (fs fs2 : FS)
    (h : buildVectorStore embed split file_path fs = (fs2, none)) :
    ∃ st : Store,
      loadStore fs2 = Except.ok st ∧
      (∀ (query : String) (k : ℕ),
        queryVectorStore embed fs2 query k = searchStore embed st query k) ∧
      ∃ raw : String, fs file_path = some (Artifact.text raw) ∧
        st.vectors = (split raw).map embed ∧ st.chunks = split raw := by
  obtain ⟨raw, v0, vs, hfp, hl, rfl⟩ := buildVectorStore_ok_inv h
  have hidx : writeChunksArtifact (writeIndexArtifact fs v0.length (v0 :: vs)) (split raw)
      indexPath = some (Artifact.faissIndex v0.length (v0 :: vs)) := by
    rw [writeChunksArtifact_other _ _ indexPath_ne_chunksPath, writeIndexArtifact_indexPath]
  have hchk : writeChunksArtifact (writeIndexArtifact fs v0.length (v0 :: vs)) (split raw)
      chunksPath = some (Artifact.pickledChunks (split raw)) :=
    writeChunksArtifact_chunksPath _ _
  have hload := loadStore_of_artifacts hidx hchk
  refine ⟨⟨v0.length, v0 :: vs, split raw⟩, hload, ?_, raw, hfp, hl.symm, rfl⟩
  intro query k
  simp only [queryVectorStore, hload]

/-- C5 (amended): ingesting a document whose chunking yields zero chunks
fails — with the unhandled IndexError raised by `len(embeddings[0])`, not a
dedicated EmptyDocument guard — and leaves the previously persisted
knowledge base at the target path unchanged. -/
theorem claim_C5 (embed : String → Vec) (split : String → List String)
    (file_path : String) (fs : FS) (raw : String)
    (hend : pyEndswith file_path ".txt" = true)
    (hfp : fs file_path = some (Artifact.text raw))
    (hl : split raw = []) :
    buildVectorStore embed split file_path fs = (fs, some BuildError.indexError) ∧
    BuildError.indexError ≠ BuildError.emptyDocument :=
  ⟨buildVectorStore_empty_chunks hend hfp hl, by decide⟩

/-- C6 (amended): the two artifact writes of `build_vector_store` are
sequential in-place writes with no temporary file or atomic replace: after
the index write and before the chunk write the disk pairs the new vector
artifact with the prior chunk artifact, so a failure of the second write
leaves that mixed-generation pair observable; failures raised before any
write do leave the prior state fully intact. -/
theorem claim_C6 (fs : FS) (d : ℕ) (vecs : List Vec) (a : Artifact)
    (hold : fs chunksPath = some a) :
    writeIndexArtifact fs d vecs indexPath = some (Artifact.faissIndex d vecs) ∧
    writeIndexArtifact fs d vecs chunksPath = some a ∧
    ∀ (embed : String → Vec) (split : String → List String) (file_path : String)
      (fs2 : FS) (e : BuildError),
      buildVectorStore embed split file_path fs = (fs2, some e) → fs2 = fs :=
  ⟨writeIndexArtifact_indexPath fs d vecs,
   by rw [writeIndexArtifact_other fs d vecs chunksPath_ne_indexPath]; exact hold,
   fun _ _ _ _ _ h => buildVectorStore_error_fs h⟩

/-- C10: `build_vector_store` touches no on-disk path other than the two
fixed artifact locations `vector_db/agri_knowledge/index.faiss` and
`vector_db/agri_knowledge/chunks.pkl`, whatever the source document path
argument is: every other path holds afterwards exactly what it held
before. -/
theorem claim_C10 (embed : String → Vec) (split : String → List String)
    (file_path : String) (fs : FS) (p : String)
    (hp1 : p ≠ indexPath) (hp2 : p ≠ chunksPath) :
    (buildVectorStore embed split file_path fs).1 p = fs p := by
  rcases hres : buildVectorStore embed split file_path fs with ⟨fs2, oe⟩
  cases oe with
  | some e =>
    exact congrFun (buildVectorStore_error_fs hres) p
  | none =>
    obtain ⟨raw, v0, vs, hfp, hl, hfs2⟩ := buildVectorStore_ok_inv hres
    show fs2 p = fs p
    rw [hfs2, writeChunksArtifact_other _ _ hp2, writeIndexArtifact_other _ _ _ hp1]

/-! ## The query engine's error and totality behaviour -/

theorem searchStore_ne_corruptIndex (embed : String → Vec) (st : Store)
    (query : String) (k : ℕ) :
    searchStore embed st query k ≠ Except.error QueryError.corruptIndex := by
  simp only [searchStore]
  split
  · split <;> intro hcontra <;> cases hcontra
  · intro hcontra
    cases hcontra

theorem searchStore_total {st : Store} (hne : st.chunks ≠ []) (embed : String → Vec)
    (query : String) (k : ℕ) :
    searchStore embed st query k = Except.error QueryError.dimensionMismatch ∨
    ∃ rs, searchStore embed st query k = Except.ok rs ∧ rs.length ≤ k := by
  by_cases hdim : (embed query).length = st.dim
  · right
    have hbound : ∀ i ∈ (faissSearch st.vectors (embed query) k).filter
        (fun i => decide (i < (st.chunks.length : ℤ))), -1 ≤ i ∧ i < (st.chunks.length : ℤ) := by
      intro i hi
      have hmem := List.mem_filter.mp hi
      refine ⟨?_, of_decide_eq_true hmem.2⟩
      rcases mem_faissSearch hmem.1 with rfl | ⟨n, rfl, hn⟩
      · exact le_refl _
      · have h0 : (0 : ℤ) ≤ Int.ofNat n := Int.ofNat_nonneg n
        omega
    obtain ⟨rs, hrs, hlen⟩ := materialize_total hne _ hbound
    refine ⟨rs, ?_, ?_⟩
    · simp only [searchStore]
      rw [if_pos hdim, hrs]
    · rw [hlen]
      calc ((faissSearch st.vectors (embed query) k).filter
            (fun i => decide (i < (st.chunks.length : ℤ)))).length
          ≤ (faissSearch st.vectors (embed query) k).length := List.length_filter_le _ _
        _ = k := faissSearch_length _ _ _
  · left
    simp only [searchStore]
    rw [if_neg hdim]

/-- C8: querying when either companion artifact is absent fails with the
`FileNotFoundError` guard (the spec's KnowledgeBaseNotFound), for every
query string and every k. -/
theorem claim_C8 (embed : String → Vec) (fs : FS) (query : String) (k : ℕ)
    (h : fs indexPath = none ∨ fs chunksPath = none) :
    queryVectorStore embed fs query k = Except.error QueryError.knowledgeBaseNotFound := by
  have hload : loadStore fs = Except.error QueryError.knowledgeBaseNotFound := by
    unfold loadStore
    rcases h with h | h
    · rw [h]
      cases hc : fs chunksPath with
      | none => rfl
      | some a => cases a <;> rfl
    · rw [h]
      cases hi : fs indexPath with
      | none => rfl
      | some a => cases a <;> rfl
  simp only [queryVectorStore, hload]

/-- C8 witness: on an empty disk every query fails with the
knowledge-base-not-found error. -/
theorem claim_C8_witness :
    queryVectorStore embedOne fsEmpty "q" 3 = Except.error QueryError.knowledgeBaseNotFound :=
  claim_C8 embedOne fsEmpty "q" 3 (Or.inl rfl)

/-- C7 (amended): loading a knowledge base whose vector count disagrees with
its chunk count does not fail: `query_vector_store` performs no count
validation, the load succeeds with the mismatched data as-is, and queries
proceed through the search (never raising the spec's CorruptIndex). -/
theorem claim_C7 (fs : FS) (d : ℕ) (vecs : List Vec) (cs : List String)
    (hidx : fs indexPath = some (Artifact.faissIndex d vecs))
    (hchk : fs chunksPath = some (Artifact.pickledChunks cs))
    (_hmis : vecs.length ≠ cs.length) :
    loadStore fs = Except.ok ⟨d, vecs, cs⟩ ∧
    ∀ (embed : String → Vec) (query : String) (k : ℕ),
      queryVectorStore embed fs query k = searchStore embed ⟨d, vecs, cs⟩ query k ∧
      queryVectorStore embed fs query k ≠ Except.error QueryError.corruptIndex := by
  have hload := loadStore_of_artifacts hidx hchk
  refine ⟨hload, fun embed query k => ⟨?_, ?_⟩⟩
  · simp only [queryVectorStore, hload]
  · simp only [queryVectorStore, hload]
    exact searchStore_ne_corruptIndex embed ⟨d, vecs, cs⟩ query k

/-- C7 counterexample: a store persisting two vectors beside a single chunk
loads without any CorruptIndex failure and answers a query. -/
theorem claim_C7_counterexample :
    loadStore fsMismatch = Except.ok ⟨1, [[0], [4]], ["a"]⟩ ∧
    queryVectorStore embedOne fsMismatch "q" 3 = Except.ok ["a", "a"] := by
  constructor
  · rfl
  · norm_num [queryVectorStore, loadStore, fsMismatch, chunksPath_ne_indexPath, searchStore,
      embedOne, faissSearch, rankedIndices, List.insertionSort, List.orderedInsert,
      keyLE, distTo, sqDist, materialize, pyIndex, List.filter]

/-- C9 (amended): for every loaded knowledge base whose chunk list is
non-empty, the result materialization of `query_vector_store` is total —
every index admitted by the `i < len(chunks)` filter is a valid (possibly
negative) Python index — and the returned list has length at most `top_k`.
(The degenerate loadable store with an empty chunk list violates the
unrestricted claim: the filter admits FAISS's `-1` padding, and `chunks[-1]`
on an empty list raises IndexError.) -/
theorem claim_C9 (embed : String → Vec) (fs : FS) (query : String) (k : ℕ) (st : Store)
    (hload : loadStore fs = Except.ok st) (hne : st.chunks ≠ []) :
    queryVectorStore embed fs query k ≠ Except.error QueryError.indexError ∧
    ∀ rs, queryVectorStore embed fs query k = Except.ok rs → rs.length ≤ k := by
  have hq : queryVectorStore embed fs query k = searchStore embed st query k := by
    simp only [queryVectorStore, hload]
  rw [hq]
  rcases searchStore_total hne embed query k with hdim | ⟨rs, hrs, hlen⟩
  · rw [hdim]
    refine ⟨by simp, ?_⟩
    intro rs hcontra
    cases hcontra
  · rw [hrs]
    refine ⟨by simp, ?_⟩
    intro rs2 heq
    cases heq
    exact hlen

/-- C9 counterexample: the degenerate loadable store (empty index, empty
chunk list) makes the materialization raise IndexError: FAISS pads with
`-1`, the filter `-1 < 0` admits it, and `chunks[-1]` on `[]` is out of
range. -/
theorem claim_C9_counterexample :
    loadStore fsDegenerate = Except.ok ⟨1, [], []⟩ ∧
    queryVectorStore embedOne fsDegenerate "q" 1 = Except.error QueryError.indexError := by
  constructor
  · rfl
  · norm_num [queryVectorStore, loadStore, fsDegenerate, chunksPath_ne_indexPath, searchStore,
      embedOne, faissSearch, rankedIndices, List.insertionSort, List.orderedInsert,
      keyLE, distTo, sqDist, materialize, pyIndex, List.filter]

/-- C4: on a store holding a single vector/chunk pair, a query with
`top_k = 3` does not return the one stored chunk once: FAISS pads the label
output with `-1`, the filter `i < len(chunks)` admits `-1`, and Python's
negative indexing resolves `chunks[-1]` to the last chunk, so the stored
chunk is returned three times. -/
theorem claim_C4 :
    loadStore fsSingle = Except.ok ⟨1, [[0]], ["c0"]⟩ ∧
    queryVectorStore embedOne fsSingle "q" 3 = Except.ok ["c0", "c0", "c0"] := by
  constructor
  · rfl
  · norm_num [queryVectorStore, loadStore, fsSingle, chunksPath_ne_indexPath, searchStore,
      embedOne, faissSearch, rankedIndices, List.insertionSort, List.orderedInsert,
      keyLE, distTo, sqDist, materialize, pyIndex, List.filter]

/-! ## Counterexamples and witnesses at concrete inputs -/

/-- C5 counterexample: ingesting an empty document over an existing
knowledge base fails with the accidental IndexError — not the spec's
EmptyDocument — while both prior artifacts stay in place. -/
theorem claim_C5_counterexample :
    buildVectorStore embedOne toySplit "empty.txt" fsPriorEmptyDoc
        = (fsPriorEmptyDoc, some BuildError.indexError) ∧
    BuildError.indexError ≠ BuildError.emptyDocument ∧
    fsPriorEmptyDoc indexPath = some oldIndexArt ∧
    fsPriorEmptyDoc chunksPath = some oldChunksArt := by
  refine ⟨rfl, by decide, rfl, rfl⟩

/-- C6 counterexample: a successful rebuild factors through the
intermediate disk state reached after `faiss.write_index` and before
`pickle.dump`; at that state the new vector artifact sits beside the prior
generation's chunk artifact, so a failure of the second write exposes a
mixed-generation pair. -/
theorem claim_C6_counterexample :
    (buildVectorStore embedOne toySplit "new.txt" fsPriorNewDoc).1
        = writeChunksArtifact (writeIndexArtifact fsPriorNewDoc 1 [[1]]) ["new"] ∧
    writeIndexArtifact fsPriorNewDoc 1 [[1]] indexPath
        = some (Artifact.faissIndex 1 [[1]]) ∧
    writeIndexArtifact fsPriorNewDoc 1 [[1]] chunksPath
        = some (Artifact.pickledChunks ["old"]) := by
  refine ⟨rfl, rfl, rfl⟩

/-- C1 witness: three stored vectors, a top-2 query. -/
theorem claim_C1_witness :
    ∃ idxs : List ℕ,
      queryVectorStore embedOne fsThree "q" 2 =
        Except.ok (idxs.map fun n => ["a", "b", "c"].getD n "") ∧
      idxs.length = 2 ∧
      idxs.Nodup ∧
      (∀ i ∈ idxs, i < ([[0], [2], [5]] : List Vec).length) ∧
      List.Pairwise (keyLE [[0], [2], [5]] (embedOne "q")) idxs ∧
      (∀ i ∈ idxs, ∀ j, j < ([[0], [2], [5]] : List Vec).length → j ∉ idxs →
        keyLE [[0], [2], [5]] (embedOne "q") i j) :=
  claim_C1 embedOne fsThree "q" 2 1 [[0], [2], [5]] ["a", "b", "c"]
    rfl rfl rfl (by decide) rfl

/-- C2 witness: one successful ingestion run over a one-chunk document. -/
theorem claim_C2_witness :
    ∃ (d : ℕ) (vecs : List Vec) (chunks : List String),
      (writeChunksArtifact (writeIndexArtifact fsDocOnly 1 [[1]]) ["hello"]) indexPath
        = some (Artifact.faissIndex d vecs) ∧
      (writeChunksArtifact (writeIndexArtifact fsDocOnly 1 [[1]]) ["hello"]) chunksPath
        = some (Artifact.pickledChunks chunks) ∧
      vecs.length = chunks.length ∧
      ∀ (i : ℕ) (h1 : i < vecs.length) (h2 : i < chunks.length),
        vecs[i] = embedOne chunks[i] :=
  claim_C2 embedOne toySplit "doc.txt" fsDocOnly
    (writeChunksArtifact (writeIndexArtifact fsDocOnly 1 [[1]]) ["hello"]) rfl

/-- C3 witness: the round-trip property at the same concrete ingestion
run. -/
theorem claim_C3_witness :
    ∃ st : Store,
      loadStore (writeChunksArtifact (writeIndexArtifact fsDocOnly 1 [[1]]) ["hello"])
        = Except.ok st ∧
      (∀ (query : String) (k : ℕ),
        queryVectorStore embedOne
            (writeChunksArtifact (writeIndexArtifact fsDocOnly 1 [[1]]) ["hello"]) query k
          = searchStore embedOne st query k) ∧
      ∃ raw : String, fsDocOnly "doc.txt" = some (Artifact.text raw) ∧
        st.vectors = (toySplit raw).map embedOne ∧ st.chunks = toySplit raw :=
  claim_C3 embedOne toySplit "doc.txt" fsDocOnly
    (writeChunksArtifact (writeIndexArtifact fsDocOnly 1 [[1]]) ["hello"]) rfl

/-- C5 witness: the amended empty-document behaviour at a concrete disk. -/
theorem claim_C5_witness :
    buildVectorStore embedOne toySplit "empty.txt" fsPriorEmptyDoc
        = (fsPriorEmptyDoc, some BuildError.indexError) ∧
    BuildError.indexError ≠ BuildError.emptyDocument :=
  claim_C5 embedOne toySplit "empty.txt" fsPriorEmptyDoc "" rfl rfl rfl

/-- C6 witness: the amended persistence behaviour at a concrete disk. -/
theorem claim_C6_witness :
    writeIndexArtifact fsPriorNewDoc 1 [[1]] indexPath
        = some (Artifact.faissIndex 1 [[1]]) ∧
    writeIndexArtifact fsPriorNewDoc 1 [[1]] chunksPath = some oldChunksArt ∧
    ∀ (embed : String → Vec) (split : String → List String) (file_path : String)
      (fs2 : FS) (e : BuildError),
      buildVectorStore embed split file_path fsPriorNewDoc = (fs2, some e) →
        fs2 = fsPriorNewDoc :=
  claim_C6 fsPriorNewDoc 1 [[1]] oldChunksArt rfl

/-- C7 witness: the amended count-mismatch behaviour at the corrupt
store. -/
theorem claim_C7_witness :
    loadStore fsMismatch = Except.ok ⟨1, [[0], [4]], ["a"]⟩ ∧
    ∀ (embed : String → Vec) (query : String) (k : ℕ),
      queryVectorStore embed fsMismatch query k
          = searchStore embed ⟨1, [[0], [4]], ["a"]⟩ query k ∧
      queryVectorStore embed fsMismatch query k
          ≠ Except.error QueryError.corruptIndex :=
  claim_C7 fsMismatch 1 [[0], [4]] ["a"] rfl rfl (by decide)

/-- C9 witness: the amended materialization totality on a well-formed
store. -/
theorem claim_C9_witness :
    queryVectorStore embedOne fsThree "q" 2 ≠ Except.error QueryError.indexError ∧
    ∀ rs, queryVectorStore embedOne fsThree "q" 2 = Except.ok rs → rs.length ≤ 2 :=
  claim_C9 embedOne fsThree "q" 2 ⟨1, [[0], [2], [5]], ["a", "b", "c"]⟩ rfl (by decide)

/-- C10 witness: an unrelated path is untouched by a concrete ingestion
run. -/
theorem claim_C10_witness :
    (buildVectorStore embedOne toySplit "doc.txt" fsDocOnly).1 "other.path"
        = fsDocOnly "other.path" :=
  claim_C10 embedOne toySplit "doc.txt" fsDocOnly "other.path" (by decide) (by decide)
